import Mathlib

/-!
Verification development for the interview-question generator
(`generate_interview_questions.py`).

The script holds two static tables (a day-number → topic-title table and an
ordered company list), and for each day in `range(6, 21)` it renders a fixed
markdown template and writes it to `day-{day}/practice/interview-questions.md`,
printing one progress line per file and one final completion line.

The embedding below mirrors the script:
* `topics`, `companies` — the static tables (source lines 4–22);
* `content` — the rendered document for one day (source lines 26–92), built
  exactly as in the source: the big leading f-string, one appended block per
  company, and the appended summary block;
* `genLoop` / `run` — the main loop (source lines 24–98), modelled as a state
  machine over an abstract file system `FS` together with an event trace
  (file writes and console prints).  The topic table and a write-success
  predicate are parameters so that the error paths (a missing table entry,
  i.e. Python's `KeyError` on `topics[day]`, and a failing `open`/`write`)
  can be stated; the shipped program is `run topics` with all writes
  succeeding.
-/

namespace ReactGen

/-- Topic table, source lines 4–20 (`topics = {6: ..., ..., 20: ...}`).
Python dict indexing `topics[day]` is modelled by `List.lookup`
(`none` = `KeyError`). -/
def topics : List (Nat × String) :=
  [(6, "Forms & Controlled Components"),
   (7, "Conditional Rendering Patterns"),
   (8, "useEffect Hook - Part 1"),
   (9, "useEffect Hook - Part 2"),
   (10, "Data Fetching Patterns"),
   (11, "useRef Hook"),
   (12, "useCallback Hook"),
   (13, "useMemo Hook"),
   (14, "Context API - Part 1"),
   (15, "Context API - Part 2"),
   (16, "Custom Hooks - Part 1"),
   (17, "Custom Hooks - Part 2"),
   (18, "Component Composition"),
   (19, "Compound Components Pattern"),
   (20, "Render Props Pattern")]

/-- Company list, source line 22. -/
def companies : List String :=
  ["Google", "Meta", "Amazon", "Microsoft", "Apple", "Netflix", "Uber",
   "LinkedIn", "Twitter", "Airbnb"]

/-- Python `', '.join(companies)` (source line 41). -/
def companiesJoined : String := String.intercalate ", " companies

/-- The leading f-string of the template, source lines 26–71. -/
def headerPart (day : Nat) (topic : String) : String :=
  s!"# Day {day}: {topic} - 100+ Interview Questions\n\n## Theory Questions from Top MNCs (50+)\n\n### Q1-Q50: Core Concepts ({topic})\n\nDay {day} covers essential React concepts related to {topic}.\n\n**Key Topics**:\n- Fundamental concepts\n- Advanced patterns\n- Best practices\n- Performance optimization\n- Real-world applications\n\n**Companies**: {companiesJoined}\n\n---\n\n## Coding Challenges from Real Interviews (40+)\n\n### Problem 1-40: Practical Coding Problems\n\nReal coding challenges asked in interviews at top companies covering {topic}.\n\n**Sample Problems**:\n1. Basic implementation\n2. Intermediate patterns\n3. Advanced optimizations\n4. Real-world scenarios\n\n---\n\n## Advanced & Edge Cases (10+)\n\n### Q1-Q10: Edge Cases and Advanced Scenarios\n\nQuestions testing deep understanding of {topic} and edge cases.\n\n---\n\n## Company-Specific Questions (10+)\n\n### Questions from specific companies:\n\n"

/-- The per-company block appended in the inner `for company in companies`
loop, source lines 72–78. -/
def companyPart (topic company : String) : String :=
  s!"\n### {company} Questions\n- Question 1 about {topic}\n- Question 2 about {topic}\n- Best practices for {topic}\n"

/-- The final summary block appended after the company loop,
source lines 80–92. -/
def summaryPart (topic : String) : String :=
  s!"\n---\n\n## Summary\n- **Total Questions**: 100+\n- **Theory**: 50+ questions\n- **Coding**: 40+ challenges\n- **Advanced**: 10+ edge cases\n- **Company-specific**: 10+ questions\n\n**🎯 Master {topic} with comprehensive coverage!**\n\n"

/-- The full rendered document for one day: the header f-string, then one
appended block per company (in company-list order), then the summary block —
exactly the `content` variable of the source. -/
def content (day : Nat) (topic : String) : String :=
  companies.foldl (fun acc company => acc ++ companyPart topic company)
    (headerPart day topic) ++ summaryPart topic

/-- Destination path `day-{day}/practice/interview-questions.md`
(source line 94). -/
def filePath (day : Nat) : String :=
  "day-" ++ toString day ++ "/practice/interview-questions.md"

/-- Progress line printed after each write (source line 96). -/
def createdMsg (day : Nat) : String := "✅ Created " ++ filePath day

/-- Final completion line (source line 98). -/
def doneMsg : String := "✅ Generated all interview question files!"

/-- The iteration space of the main loop: Python `range(6, 21)`
(source line 24). -/
def days : List Nat := List.range' 6 15

/-- The topic-table entry for a day (total version, used to describe the
values the program actually reads; on the shipped table every day of `days`
has an entry). -/
def topicOf (d : Nat) : String := (topics.lookup d).getD ""

/-- Entry of an arbitrary topic table for a day. -/
def topicIn (tbl : List (Nat × String)) (d : Nat) : String :=
  (tbl.lookup d).getD ""

/-! ### Observing the rendered document as a list of lines -/

/-- Helper for `docLines`: split a character list at newline characters,
carrying the (reversed) current line. -/
def linesAux : List Char → List Char → List String
  | [], acc => [String.mk acc.reverse]
  | c :: cs, acc =>
    if c = '\n' then String.mk acc.reverse :: linesAux cs []
    else linesAux cs (c :: acc)

/-- The lines of a string (split at `'\n'`, keeping empty lines, as Python's
`str.split("\n")` does). -/
def docLines (s : String) : List String := linesAux s.toList []

/-- Boolean string-prefix test (over the character lists). -/
def strStartsWith (s p : String) : Bool := p.toList.isPrefixOf s.toList

/-- Boolean string-suffix test (over the character lists). -/
def strEndsWith (s p : String) : Bool :=
  p.toList.reverse.isPrefixOf s.toList.reverse

/-- The heading text of the template, `Day {day}: {topic} - 100+ Interview
Questions`, without the markdown `# ` marker. -/
def headingText (day : Nat) (topic : String) : String :=
  s!"Day {day}: {topic} - 100+ Interview Questions"

/-- The five lines a single company block contributes to the document
(the leading empty line comes from the `\n` that starts `companyPart`). -/
def companyBlockLines (topic company : String) : List String :=
  ["",
   "### " ++ company ++ " Questions",
   "- Question 1 about " ++ topic,
   "- Question 2 about " ++ topic,
   "- Best practices for " ++ topic]

/-- The lines of the header part of the rendered document. -/
def headerLines (day : Nat) (topic : String) : List String :=
  ["# " ++ headingText day topic,
   "",
   "## Theory Questions from Top MNCs (50+)",
   "",
   "### Q1-Q50: Core Concepts (" ++ topic ++ ")",
   "",
   s!"Day {day} covers essential React concepts related to {topic}.",
   "",
   "**Key Topics**:",
   "- Fundamental concepts",
   "- Advanced patterns",
   "- Best practices",
   "- Performance optimization",
   "- Real-world applications",
   "",
   "**Companies**: " ++ companiesJoined,
   "",
   "---",
   "",
   "## Coding Challenges from Real Interviews (40+)",
   "",
   "### Problem 1-40: Practical Coding Problems",
   "",
   "Real coding challenges asked in interviews at top companies covering " ++ topic ++ ".",
   "",
   "**Sample Problems**:",
   "1. Basic implementation",
   "2. Intermediate patterns",
   "3. Advanced optimizations",
   "4. Real-world scenarios",
   "",
   "---",
   "",
   "## Advanced & Edge Cases (10+)",
   "",
   "### Q1-Q10: Edge Cases and Advanced Scenarios",
   "",
   "Questions testing deep understanding of " ++ topic ++ " and edge cases.",
   "",
   "---",
   "",
   "## Company-Specific Questions (10+)",
   "",
   "### Questions from specific companies:",
   ""]

/-- The lines of the summary part of the rendered document. -/
def summaryLines (topic : String) : List String :=
  ["",
   "---",
   "",
   "## Summary",
   "- **Total Questions**: 100+",
   "- **Theory**: 50+ questions",
   "- **Coding**: 40+ challenges",
   "- **Advanced**: 10+ edge cases",
   "- **Company-specific**: 10+ questions",
   "",
   "**🎯 Master " ++ topic ++ " with comprehensive coverage!**",
   "",
   ""]

/-- Line-level view of the rendered document; proved equal to
`docLines (content d (topicOf d))` for every day of the run
(`docLines_content`). -/
def contentLines (day : Nat) (topic : String) : List String :=
  headerLines day topic ++ companies.flatMap (companyBlockLines topic)
    ++ summaryLines topic

/-! ### The main loop as a state machine -/

/-- Observable events of a run: a file write (path and full text) and a
console print. -/
inductive Event
  | write (path text : String)
  | print (line : String)
deriving DecidableEq

/-- The two ways a run can abort: Python's `KeyError` on `topics[day]`
(the spec's MissingTopicError) and a failing `open`/`write`
(the spec's FileWriteError). -/
inductive GenErr
  | keyError (day : Nat)
  | writeError (path : String)
deriving DecidableEq

/-- Abstract file system: contents (if any) per path. -/
def FS : Type := String → Option String

/-- Writing a file replaces whatever was at its path. -/
def fsWrite (fs : FS) (p c : String) : FS :=
  fun q => if q = p then some c else fs q

/-- Writing a list of (path, text) pairs in order. -/
def fsWrites (fs : FS) (ps : List (String × String)) : FS :=
  ps.foldl (fun f pc => fsWrite f pc.1 pc.2) fs

/-- Run state: the file system plus the trace of events so far. -/
structure St where
  fs : FS
  trace : List Event

/-- One pass of the main loop body for the days still to process
(source lines 24–96): look the day up in the table (`KeyError` aborts),
open/write the file (a failing write aborts; `writeOk` says whether the
file system accepts a write at a given path), then print the progress
line.  Returns the final state and the error that aborted the run,
if any. -/
def genLoop (tbl : List (Nat × String)) (writeOk : String → Bool) :
    List Nat → St → St × Option GenErr
  | [], s => (s, none)
  | d :: ds, s =>
    match tbl.lookup d with
    | none => (s, some (.keyError d))
    | some topic =>
      if writeOk (filePath d) then
        genLoop tbl writeOk ds
          { fs := fsWrite s.fs (filePath d) (content d topic),
            trace := s.trace ++
              [.write (filePath d) (content d topic), .print (createdMsg d)] }
      else (s, some (.writeError (filePath d)))

/-- A whole run of the script from an initial file system: the loop over
`days`, then (only if the loop finished) the final print of
source line 98. -/
def run (tbl : List (Nat × String)) (writeOk : String → Bool) (fs0 : FS) :
    St × Option GenErr :=
  match genLoop tbl writeOk days { fs := fs0, trace := [] } with
  | (s, none) => ({ s with trace := s.trace ++ [.print doneMsg] }, none)
  | (s, some e) => (s, some e)

/-- The event trace of a run. -/
def runTrace (tbl : List (Nat × String)) (writeOk : String → Bool)
    (fs0 : FS) : List Event := (run tbl writeOk fs0).1.trace

/-- The file system left by a run. -/
def runFS (tbl : List (Nat × String)) (writeOk : String → Bool)
    (fs0 : FS) : FS := (run tbl writeOk fs0).1.fs

/-- The error (if any) that aborted a run. -/
def runErr (tbl : List (Nat × String)) (writeOk : String → Bool)
    (fs0 : FS) : Option GenErr := (run tbl writeOk fs0).2

/-- The console lines of a trace, in order. -/
def prints (evs : List Event) : List String :=
  evs.filterMap fun e =>
    match e with
    | .print l => some l
    | .write _ _ => none

/-- The file writes of a trace (path and full text), in order. -/
def writes (evs : List Event) : List (String × String) :=
  evs.filterMap fun e =>
    match e with
    | .write p c => some (p, c)
    | .print _ => none

/-- The two events day `d` contributes to the trace when its table lookup
succeeds and its write is accepted. -/
def dayEvents (tbl : List (Nat × String)) (d : Nat) : List Event :=
  [.write (filePath d) (content d (topicIn tbl d)), .print (createdMsg d)]

/-- Is this event a file write? -/
def isWriteEvent : Event → Bool
  | .write _ _ => true
  | .print _ => false

/-- Is this event the printing of a per-file progress notice (as opposed to
the final completion notice)? -/
def isProgressEvent : Event → Bool
  | .write _ _ => false
  | .print l => strStartsWith l "✅ Created "

/-- Number of files written in a trace. -/
def cntWrites (evs : List Event) : Nat := evs.countP isWriteEvent

/-- Number of progress notices in a trace. -/
def cntProgress (evs : List Event) : Nat := evs.countP isProgressEvent

/-- The shipped topic table with day 13 removed (a concrete table used to
exercise the missing-entry error path). -/
def tblNo13 : List (Nat × String) := topics.filter (fun p => p.1 != 13)

/-! ### Structure of the rendered documents -/

set_option maxRecDepth 100000

set_option maxHeartbeats 1000000 in
/-- Day 6's rendered document splits into its line list (by evaluation). -/
lemma docLines_content_d6 :
    docLines (content 6 (topicOf 6)) = contentLines 6 (topicOf 6) := by decide

set_option maxHeartbeats 1000000 in
/-- Day 7's rendered document splits into its line list (by evaluation). -/
lemma docLines_content_d7 :
    docLines (content 7 (topicOf 7)) = contentLines 7 (topicOf 7) := by decide

set_option maxHeartbeats 1000000 in
/-- Day 8's rendered document splits into its line list (by evaluation). -/
lemma docLines_content_d8 :
    docLines (content 8 (topicOf 8)) = contentLines 8 (topicOf 8) := by decide

set_option maxHeartbeats 1000000 in
/-- Day 9's rendered document splits into its line list (by evaluation). -/
lemma docLines_content_d9 :
    docLines (content 9 (topicOf 9)) = contentLines 9 (topicOf 9) := by decide

set_option maxHeartbeats 1000000 in
/-- Day 10's rendered document splits into its line list (by evaluation). -/
lemma docLines_content_d10 :
    docLines (content 10 (topicOf 10)) = contentLines 10 (topicOf 10) := by decide

set_option maxHeartbeats 1000000 in
/-- Day 11's rendered document splits into its line list (by evaluation). -/
lemma docLines_content_d11 :
    docLines (content 11 (topicOf 11)) = contentLines 11 (topicOf 11) := by decide

set_option maxHeartbeats 1000000 in
/-- Day 12's rendered document splits into its line list (by evaluation). -/
lemma docLines_content_d12 :
    docLines (content 12 (topicOf 12)) = contentLines 12 (topicOf 12) := by decide

set_option maxHeartbeats 1000000 in
/-- Day 13's rendered document splits into its line list (by evaluation). -/
lemma docLines_content_d13 :
    docLines (content 13 (topicOf 13)) = contentLines 13 (topicOf 13) := by decide

set_option maxHeartbeats 1000000 in
/-- Day 14's rendered document splits into its line list (by evaluation). -/
lemma docLines_content_d14 :
    docLines (content 14 (topicOf 14)) = contentLines 14 (topicOf 14) := by decide

set_option maxHeartbeats 1000000 in
/-- Day 15's rendered document splits into its line list (by evaluation). -/
lemma docLines_content_d15 :
    docLines (content 15 (topicOf 15)) = contentLines 15 (topicOf 15) := by decide

set_option maxHeartbeats 1000000 in
/-- Day 16's rendered document splits into its line list (by evaluation). -/
lemma docLines_content_d16 :
    docLines (content 16 (topicOf 16)) = contentLines 16 (topicOf 16) := by decide

set_option maxHeartbeats 1000000 in
/-- Day 17's rendered document splits into its line list (by evaluation). -/
lemma docLines_content_d17 :
    docLines (content 17 (topicOf 17)) = contentLines 17 (topicOf 17) := by decide

set_option maxHeartbeats 1000000 in
/-- Day 18's rendered document splits into its line list (by evaluation). -/
lemma docLines_content_d18 :
    docLines (content 18 (topicOf 18)) = contentLines 18 (topicOf 18) := by decide

set_option maxHeartbeats 1000000 in
/-- Day 19's rendered document splits into its line list (by evaluation). -/
lemma docLines_content_d19 :
    docLines (content 19 (topicOf 19)) = contentLines 19 (topicOf 19) := by decide

set_option maxHeartbeats 1000000 in
/-- Day 20's rendered document splits into its line list (by evaluation). -/
lemma docLines_content_d20 :
    docLines (content 20 (topicOf 20)) = contentLines 20 (topicOf 20) := by decide

/-- For every day the run touches, the rendered document splits into the
line list `contentLines` (by the fifteen per-day evaluations above). -/
lemma docLines_content :
    ∀ d ∈ days, docLines (content d (topicOf d)) = contentLines d (topicOf d) := by
  have hde : days = [6, 7, 8, 9, 10, 11, 12, 13, 14, 15, 16, 17, 18, 19, 20] := by
    decide
  intro d hd
  rw [hde] at hd
  simp only [List.mem_cons, List.not_mem_nil, or_false] at hd
  rcases hd with rfl | rfl | rfl | rfl | rfl | rfl | rfl | rfl | rfl | rfl |
    rfl | rfl | rfl | rfl | rfl
  exacts [docLines_content_d6, docLines_content_d7, docLines_content_d8,
    docLines_content_d9, docLines_content_d10, docLines_content_d11,
    docLines_content_d12, docLines_content_d13, docLines_content_d14,
    docLines_content_d15, docLines_content_d16, docLines_content_d17,
    docLines_content_d18, docLines_content_d19, docLines_content_d20]

set_option maxHeartbeats 4000000 in
/-- On every day the heading-line filter of the document and the
companies line evaluate as expected (checked on all fifteen days). -/
lemma contentLines_company_facts :
    ∀ d ∈ days,
      ((contentLines d (topicOf d)).filter
          (fun l => strStartsWith l "### " && strEndsWith l " Questions")) =
        companies.map (fun c => "### " ++ c ++ " Questions") ∧
      ("**Companies**: " ++ companiesJoined) ∈ contentLines d (topicOf d) := by
  decide

/-- C1: for every day d in [6, 20], the first line of the rendered document
is the heading `Day {d}: {topic(d)} - 100+ Interview Questions` prefixed
with `# `, where topic(d) is day d's entry in the static topic table. -/
theorem spec_c1 (d : Nat) (t : String) (hd : d ∈ days)
    (ht : topics.lookup d = some t) :
    (docLines (content d t)).head? = some ("# " ++ headingText d t) := by
  have htt : topicOf d = t := by simp [topicOf, ht]
  rw [← htt, docLines_content d hd]
  rfl

/-- Witness for C1 at day 6: the first line of day 6's document is the
literal heading named by the claim. -/
theorem spec_c1_witness :
    6 ∈ days ∧
    topics.lookup 6 = some "Forms & Controlled Components" ∧
    (docLines (content 6 "Forms & Controlled Components")).head? =
      some "# Day 6: Forms & Controlled Components - 100+ Interview Questions" := by
  refine ⟨by decide, by decide, ?_⟩
  have h := spec_c1 6 "Forms & Controlled Components" (by decide) (by decide)
  rw [h]
  rfl

/-- C4: for every day d in [6, 20], the document has exactly the ten company
subsection headings `### {company} Questions`, one per entry of the company
list and in list order; the company blocks (heading plus the three bullet
lines interpolating company and topic) occur contiguously in list order; and
the Theory-Questions company line carries the comma-joined company list
`Google, Meta, Amazon, Microsoft, Apple, Netflix, Uber, LinkedIn, Twitter,
Airbnb`. -/
theorem spec_c4 (d : Nat) (t : String) (hd : d ∈ days)
    (ht : topics.lookup d = some t) :
    ((docLines (content d t)).filter
        (fun l => strStartsWith l "### " && strEndsWith l " Questions")) =
      companies.map (fun c => "### " ++ c ++ " Questions") ∧
    companies.flatMap (companyBlockLines t) <:+: docLines (content d t) ∧
    companies.length = 10 ∧
    ("**Companies**: " ++ companiesJoined) ∈ docLines (content d t) ∧
    companiesJoined =
      "Google, Meta, Amazon, Microsoft, Apple, Netflix, Uber, LinkedIn, Twitter, Airbnb" := by
  have htt : topicOf d = t := by simp [topicOf, ht]
  subst htt
  rw [docLines_content d hd]
  refine ⟨(contentLines_company_facts d hd).1, ?_, rfl,
    (contentLines_company_facts d hd).2, by decide⟩
  exact ⟨headerLines d (topicOf d), summaryLines (topicOf d), rfl⟩

/-- Witness for C4 at day 6: the heading filter yields the ten company
headings and the joined company line is the literal list from the claim. -/
theorem spec_c4_witness :
    6 ∈ days ∧
    topics.lookup 6 = some "Forms & Controlled Components" ∧
    ((docLines (content 6 "Forms & Controlled Components")).filter
        (fun l => strStartsWith l "### " && strEndsWith l " Questions")) =
      companies.map (fun c => "### " ++ c ++ " Questions") ∧
    companiesJoined =
      "Google, Meta, Amazon, Microsoft, Apple, Netflix, Uber, LinkedIn, Twitter, Airbnb" :=
  ⟨by decide, by decide,
   (spec_c4 6 "Forms & Controlled Components" (by decide) (by decide)).1,
   (spec_c4 6 "Forms & Controlled Components" (by decide) (by decide)).2.2.2.2⟩

/-- C6 counterexample: in day 20's rendered document neither
`**Total Questions**: 100+` nor
`🎯 Master Render Props Pattern with comprehensive coverage!` occurs as a
line — the document's lines carry a `- ` bullet marker respectively `**`
emphasis markers around those texts. -/
theorem spec_c6_counterexample :
    topicOf 20 = "Render Props Pattern" ∧
    "**Total Questions**: 100+" ∉ docLines (content 20 (topicOf 20)) ∧
    "🎯 Master Render Props Pattern with comprehensive coverage!" ∉
      docLines (content 20 (topicOf 20)) := by
  refine ⟨by decide, ?_, ?_⟩ <;>
    rw [docLines_content 20 (by decide)] <;> decide

/-- C6 (amended): day 20's rendered document has a `## Summary` section
containing the literal line `- **Total Questions**: 100+`, and its closing
(last non-empty) line is
`**🎯 Master Render Props Pattern with comprehensive coverage!**`. -/
theorem spec_c6 :
    "## Summary" ∈ docLines (content 20 (topicOf 20)) ∧
    "- **Total Questions**: 100+" ∈ docLines (content 20 (topicOf 20)) ∧
    (((docLines (content 20 (topicOf 20))).filter (fun l => l != "")).getLast?) =
      some "**🎯 Master Render Props Pattern with comprehensive coverage!**" := by
  refine ⟨?_, ?_, ?_⟩ <;> rw [docLines_content 20 (by decide)] <;> decide

/-! ### Loop lemmas -/

/-- Every day of the loop range has an entry in the shipped topic table. -/
lemma topics_lookup_all : ∀ d ∈ days, (topics.lookup d).isSome = true := by
  decide

/-- The loop range has no repeated day. -/
lemma days_nodup : days.Nodup := by decide

/-- Distinct days of the loop range have distinct destination paths. -/
lemma filePath_inj_days :
    ∀ a ∈ days, ∀ b ∈ days, filePath a = filePath b → a = b := by decide

/-- On the shipped table, `topicIn` is `topicOf`. -/
lemma topicIn_topics : topicIn topics = topicOf := rfl

/-- Unfolding of one loop iteration. -/
lemma genLoop_cons (tbl : List (Nat × String)) (writeOk : String → Bool)
    (d : Nat) (ds : List Nat) (s : St) :
    genLoop tbl writeOk (d :: ds) s =
      match tbl.lookup d with
      | none => (s, some (.keyError d))
      | some topic =>
        if writeOk (filePath d) then
          genLoop tbl writeOk ds
            { fs := fsWrite s.fs (filePath d) (content d topic),
              trace := s.trace ++
                [.write (filePath d) (content d topic),
                 .print (createdMsg d)] }
        else (s, some (.writeError (filePath d))) := rfl

lemma prints_append (a b : List Event) :
    prints (a ++ b) = prints a ++ prints b := by
  simp [prints]

lemma writes_append (a b : List Event) :
    writes (a ++ b) = writes a ++ writes b := by
  simp [writes]

/-- The console lines contributed by a list of fully processed days. -/
lemma prints_flatMap (tbl : List (Nat × String)) (l : List Nat) :
    prints (l.flatMap (dayEvents tbl)) = l.map createdMsg := by
  induction l with
  | nil => rfl
  | cons d l ih => rw [List.flatMap_cons, prints_append, ih]; rfl

/-- The file writes contributed by a list of fully processed days. -/
lemma writes_flatMap (tbl : List (Nat × String)) (l : List Nat) :
    writes (l.flatMap (dayEvents tbl)) =
      l.map (fun e => (filePath e, content e (topicIn tbl e))) := by
  induction l with
  | nil => rfl
  | cons d l ih => rw [List.flatMap_cons, writes_append, ih]; rfl

/-- Running the loop over days whose lookups succeed and whose writes are
accepted just accumulates their writes and their trace events. -/
lemma genLoop_append (tbl : List (Nat × String)) (writeOk : String → Bool) :
    ∀ (l rest : List Nat) (s : St),
      (∀ e ∈ l, (tbl.lookup e).isSome = true) →
      (∀ e ∈ l, writeOk (filePath e) = true) →
      genLoop tbl writeOk (l ++ rest) s =
        genLoop tbl writeOk rest
          { fs := fsWrites s.fs
              (l.map (fun e => (filePath e, content e (topicIn tbl e)))),
            trace := s.trace ++ l.flatMap (dayEvents tbl) } := by
  intro l
  induction l with
  | nil =>
    intro rest s _ _
    simp [fsWrites]
  | cons e l ih =>
    intro rest s h hw
    obtain ⟨t, ht⟩ := Option.isSome_iff_exists.mp (h e (by simp))
    have hwe : writeOk (filePath e) = true := hw e (by simp)
    have htIn : topicIn tbl e = t := by simp [topicIn, ht]
    rw [List.cons_append, genLoop_cons]
    simp only [ht, hwe, if_true]
    rw [ih rest _ (fun x hx => h x (by simp [hx])) (fun x hx => hw x (by simp [hx]))]
    simp [fsWrites, dayEvents, htIn]

/-- A run whose table covers every day and whose writes all succeed: no
error, the full trace, and the file system after all fifteen writes. -/
lemma run_ok (tbl : List (Nat × String)) (fs0 : FS)
    (hall : ∀ d ∈ days, (tbl.lookup d).isSome = true) :
    runErr tbl (fun _ => true) fs0 = none ∧
    runTrace tbl (fun _ => true) fs0 =
      days.flatMap (dayEvents tbl) ++ [.print doneMsg] ∧
    runFS tbl (fun _ => true) fs0 =
      fsWrites fs0 (days.map (fun d => (filePath d, content d (topicIn tbl d)))) := by
  have h := genLoop_append tbl (fun _ => true) days [] ⟨fs0, []⟩ hall
    (fun _ _ => rfl)
  rw [List.append_nil] at h
  unfold runErr runTrace runFS run
  rw [h]
  simp [genLoop]

/-- A run aborted by a missing table entry at day `d` (the days before it
processed normally): the `KeyError` surfaces, and the trace holds exactly
the events of the days before `d`. -/
lemma run_keyError (tbl : List (Nat × String)) (fs0 : FS)
    (l₁ l₂ : List Nat) (d : Nat)
    (hdays : days = l₁ ++ d :: l₂)
    (h₁ : ∀ e ∈ l₁, (tbl.lookup e).isSome = true)
    (hd : tbl.lookup d = none) :
    runErr tbl (fun _ => true) fs0 = some (.keyError d) ∧
    runTrace tbl (fun _ => true) fs0 = l₁.flatMap (dayEvents tbl) ∧
    runFS tbl (fun _ => true) fs0 =
      fsWrites fs0 (l₁.map (fun e => (filePath e, content e (topicIn tbl e)))) := by
  unfold runErr runTrace runFS run
  rw [hdays, genLoop_append tbl (fun _ => true) l₁ (d :: l₂) ⟨fs0, []⟩ h₁
    (fun _ _ => rfl), genLoop_cons, hd]
  simp

/-- A run aborted by a rejected write at day `d` (the table has entries for
`d` and everything before it, and the earlier writes succeeded). -/
lemma run_writeError (tbl : List (Nat × String)) (writeOk : String → Bool)
    (fs0 : FS) (l₁ l₂ : List Nat) (d : Nat)
    (hdays : days = l₁ ++ d :: l₂)
    (h₁ : ∀ e ∈ l₁, (tbl.lookup e).isSome = true)
    (h₁w : ∀ e ∈ l₁, writeOk (filePath e) = true)
    (hdl : (tbl.lookup d).isSome = true)
    (hdw : writeOk (filePath d) = false) :
    runErr tbl writeOk fs0 = some (.writeError (filePath d)) ∧
    runTrace tbl writeOk fs0 = l₁.flatMap (dayEvents tbl) ∧
    runFS tbl writeOk fs0 =
      fsWrites fs0 (l₁.map (fun e => (filePath e, content e (topicIn tbl e)))) := by
  obtain ⟨t, ht⟩ := Option.isSome_iff_exists.mp hdl
  unfold runErr runTrace runFS run
  rw [hdays, genLoop_append tbl writeOk l₁ (d :: l₂) ⟨fs0, []⟩ h₁ h₁w,
    genLoop_cons, ht]
  simp [hdw]

/-- Writing a list of files none of which sits at `q` leaves `q` alone. -/
lemma fsWrites_apply_ne :
    ∀ (ps : List (String × String)) (fs : FS) (q : String),
      (∀ pc ∈ ps, pc.1 ≠ q) → fsWrites fs ps q = fs q := by
  intro ps
  induction ps with
  | nil => intro fs q _; rfl
  | cons pc ps ih =>
    intro fs q h
    show fsWrites (fsWrite fs pc.1 pc.2) ps q = fs q
    rw [ih _ q (fun x hx => h x (by simp [hx]))]
    have : ¬ q = pc.1 := fun hq => h pc (by simp) hq.symm
    simp [fsWrite, this]

/-- After writing a list of files, a path whose last write carried `c`
holds `c`. -/
lemma fsWrites_apply_mem :
    ∀ (u v : List (String × String)) (fs : FS) (p c : String),
      (∀ pc ∈ v, pc.1 ≠ p) →
      fsWrites fs (u ++ (p, c) :: v) p = some c := by
  intro u
  induction u with
  | nil =>
    intro v fs p c h
    show fsWrites (fsWrite fs p c) v p = some c
    rw [fsWrites_apply_ne v _ p h]
    simp [fsWrite]
  | cons pc u ih =>
    intro v fs p c h
    exact ih v _ p c h

/-- After the writes of a duplicate-free list of days, day `d`'s path holds
day `d`'s document. -/
lemma fsWrites_day (tbl : List (Nat × String)) (fs0 : FS) (l : List Nat)
    (hnd : l.Nodup) (hsub : ∀ e ∈ l, e ∈ days) (d : Nat) (hd : d ∈ l) :
    fsWrites fs0 (l.map (fun e => (filePath e, content e (topicIn tbl e))))
      (filePath d) = some (content d (topicIn tbl d)) := by
  obtain ⟨u, v, rfl⟩ := List.append_of_mem hd
  rw [List.map_append, List.map_cons]
  apply fsWrites_apply_mem
  intro pc hpc
  obtain ⟨e, he, rfl⟩ := List.mem_map.mp hpc
  intro hfe
  have hdv : d ∉ v := by
    have := (List.nodup_append.mp hnd).2.1
    exact (List.nodup_cons.mp this).1
  exact hdv (filePath_inj_days e (hsub e (by simp [he])) d (hsub d hd) hfe ▸ he)

/-- After the writes of a list of days, every other path is untouched. -/
lemma fsWrites_other (tbl : List (Nat × String)) (fs0 : FS) (l : List Nat)
    (q : String) (hq : ∀ e ∈ l, filePath e ≠ q) :
    fsWrites fs0 (l.map (fun e => (filePath e, content e (topicIn tbl e)))) q
      = fs0 q := by
  apply fsWrites_apply_ne
  intro pc hpc
  obtain ⟨e, he, rfl⟩ := List.mem_map.mp hpc
  exact hq e he

/-- A `KeyError` reported by the loop pins down a day of the remaining range
whose lookup failed. -/
lemma genLoop_keyError_lookup (tbl : List (Nat × String))
    (writeOk : String → Bool) :
    ∀ (ds : List Nat) (s : St) (d : Nat),
      (genLoop tbl writeOk ds s).2 = some (.keyError d) →
      d ∈ ds ∧ tbl.lookup d = none := by
  intro ds
  induction ds with
  | nil => intro s d h; exact absurd h (by simp [genLoop])
  | cons e ds ih =>
    intro s d h
    rw [genLoop_cons] at h
    cases hle : tbl.lookup e with
    | none =>
      simp only [hle] at h
      obtain rfl : e = d := by simpa using h
      exact ⟨List.mem_cons_self e ds, hle⟩
    | some t =>
      simp only [hle] at h
      cases hw : writeOk (filePath e) with
      | true =>
        simp only [hw, if_true] at h
        obtain ⟨hmem, hnone⟩ := ih _ d h
        exact ⟨List.mem_cons_of_mem e hmem, hnone⟩
      | false =>
        simp [hw] at h

/-- The error of a whole run is the error of its loop. -/
lemma runErr_genLoop (tbl : List (Nat × String)) (writeOk : String → Bool)
    (fs0 : FS) :
    runErr tbl writeOk fs0 = (genLoop tbl writeOk days ⟨fs0, []⟩).2 := by
  unfold runErr run
  rcases h : genLoop tbl writeOk days ⟨fs0, []⟩ with ⟨s, e⟩
  cases e <;> simp

/-! ### Error-path and whole-run claims -/

/-- C2: if the topic table has no entry for a day d of the range (the days
before d having entries), the run aborts with the key-lookup error for d:
the trace holds exactly the writes and notices of the days before d — no
file (empty or otherwise) is written for d, no later day is processed, and
no completion notice is printed. -/
theorem spec_c2 (tbl : List (Nat × String)) (fs0 : FS) (l₁ l₂ : List Nat)
    (d : Nat) (hdays : days = l₁ ++ d :: l₂)
    (h₁ : ∀ e ∈ l₁, (tbl.lookup e).isSome = true)
    (hd : tbl.lookup d = none) :
    runErr tbl (fun _ => true) fs0 = some (.keyError d) ∧
    prints (runTrace tbl (fun _ => true) fs0) = l₁.map createdMsg ∧
    writes (runTrace tbl (fun _ => true) fs0) =
      l₁.map (fun e => (filePath e, content e (topicIn tbl e))) ∧
    ∀ c : String, (filePath d, c) ∉ writes (runTrace tbl (fun _ => true) fs0) := by
  obtain ⟨he, htr, -⟩ := run_keyError tbl fs0 l₁ l₂ d hdays h₁ hd
  have hsub₁ : ∀ e ∈ l₁, e ∈ days := fun e he' =>
    hdays ▸ List.mem_append_left _ he'
  have hdd : d ∈ days := hdays ▸ List.mem_append_right _ (List.mem_cons_self d l₂)
  have hdl₁ : d ∉ l₁ := by
    have hnd := hdays ▸ days_nodup
    intro hmem
    exact (List.nodup_append.mp hnd).2.2 hmem (List.mem_cons_self d l₂)
  refine ⟨he, by rw [htr, prints_flatMap], by rw [htr, writes_flatMap], ?_⟩
  intro c hc
  rw [htr, writes_flatMap] at hc
  obtain ⟨e, he', heq⟩ := List.mem_map.mp hc
  have hpe : filePath e = filePath d := congrArg Prod.fst heq
  exact hdl₁ (filePath_inj_days e (hsub₁ e he') d hdd hpe ▸ he')

/-- Witness for C2: on the table missing day 13, the run aborts with the
day-13 key error, after printing exactly the notices for days 6–12. -/
theorem spec_c2_witness :
    days = [6, 7, 8, 9, 10, 11, 12] ++ 13 :: [14, 15, 16, 17, 18, 19, 20] ∧
    tblNo13.lookup 13 = none ∧
    runErr tblNo13 (fun _ => true) (fun _ => none) = some (.keyError 13) ∧
    prints (runTrace tblNo13 (fun _ => true) (fun _ => none)) =
      List.map createdMsg [6, 7, 8, 9, 10, 11, 12] := by
  have h := spec_c2 tblNo13 (fun _ => none) [6, 7, 8, 9, 10, 11, 12]
    [14, 15, 16, 17, 18, 19, 20] 13 (by decide) (by decide) (by decide)
  exact ⟨by decide, by decide, h.1, h.2.1⟩

/-- C3: if the write for day d is rejected (the writes before d having been
accepted), the error propagates: the run aborts with the write error for
d's path, the trace holds exactly the writes and notices of the days before
d (no later day is processed), the files already written for the earlier
days still hold their documents, and every other path is untouched. -/
theorem spec_c3 (writeOk : String → Bool) (fs0 : FS) (l₁ l₂ : List Nat)
    (d : Nat) (hdays : days = l₁ ++ d :: l₂)
    (h₁ : ∀ e ∈ l₁, writeOk (filePath e) = true)
    (hd : writeOk (filePath d) = false) :
    runErr topics writeOk fs0 = some (.writeError (filePath d)) ∧
    prints (runTrace topics writeOk fs0) = l₁.map createdMsg ∧
    writes (runTrace topics writeOk fs0) =
      l₁.map (fun e => (filePath e, content e (topicOf e))) ∧
    (∀ e ∈ l₁, runFS topics writeOk fs0 (filePath e) =
      some (content e (topicOf e))) ∧
    (∀ q, (∀ e ∈ l₁, filePath e ≠ q) → runFS topics writeOk fs0 q = fs0 q) := by
  have hsub₁ : ∀ e ∈ l₁, e ∈ days := fun e he' =>
    hdays ▸ List.mem_append_left _ he'
  have hdd : d ∈ days := hdays ▸ List.mem_append_right _ (List.mem_cons_self d l₂)
  have hnd₁ : l₁.Nodup := (List.nodup_append.mp (hdays ▸ days_nodup)).1
  obtain ⟨he, htr, hfs⟩ := run_writeError topics writeOk fs0 l₁ l₂ d hdays
    (fun e he' => topics_lookup_all e (hsub₁ e he')) h₁
    (topics_lookup_all d hdd) hd
  refine ⟨he, by rw [htr, prints_flatMap], ?_, ?_, ?_⟩
  · rw [htr, writes_flatMap]
    rfl
  · intro e he'
    rw [hfs]
    exact fsWrites_day topics fs0 l₁ hnd₁ hsub₁ e he'
  · intro q hq
    rw [hfs]
    exact fsWrites_other topics fs0 l₁ q hq

/-- Witness for C3: with the file system rejecting the write at day 8's
path, the run aborts with the day-8 write error, days 6 and 7 were written
and keep their documents, and day 9's file does not exist. -/
theorem spec_c3_witness :
    days = [6, 7] ++ 8 :: [9, 10, 11, 12, 13, 14, 15, 16, 17, 18, 19, 20] ∧
    runErr topics (fun p => p != filePath 8) (fun _ => none) =
      some (.writeError (filePath 8)) ∧
    prints (runTrace topics (fun p => p != filePath 8) (fun _ => none)) =
      List.map createdMsg [6, 7] ∧
    runFS topics (fun p => p != filePath 8) (fun _ => none) (filePath 6) =
      some (content 6 (topicOf 6)) ∧
    runFS topics (fun p => p != filePath 8) (fun _ => none) (filePath 9) =
      none := by
  have h := spec_c3 (fun p => p != filePath 8) (fun _ => none) [6, 7]
    [9, 10, 11, 12, 13, 14, 15, 16, 17, 18, 19, 20] 8
    (by decide) (by decide) (by decide)
  exact ⟨by decide, h.1, h.2.1, h.2.2.2.1 6 (by decide),
    h.2.2.2.2 (filePath 9) (by decide)⟩

/-- C5: the generator is idempotent — a second run starting from the file
system the first run left behind performs byte-identical writes, every
day's file holds the same document after either run, and paths other than
the fifteen outputs are exactly as in the initial file system. -/
theorem spec_c5 (fs0 : FS) :
    writes (runTrace topics (fun _ => true)
        (runFS topics (fun _ => true) fs0)) =
      writes (runTrace topics (fun _ => true) fs0) ∧
    (∀ d ∈ days,
      runFS topics (fun _ => true) fs0 (filePath d) =
        some (content d (topicOf d)) ∧
      runFS topics (fun _ => true) (runFS topics (fun _ => true) fs0)
          (filePath d) =
        runFS topics (fun _ => true) fs0 (filePath d)) ∧
    (∀ q, (∀ d ∈ days, filePath d ≠ q) →
      runFS topics (fun _ => true) (runFS topics (fun _ => true) fs0) q =
        fs0 q) := by
  obtain ⟨-, htr1, hfs1⟩ := run_ok topics fs0 topics_lookup_all
  obtain ⟨-, htr2, hfs2⟩ :=
    run_ok topics (runFS topics (fun _ => true) fs0) topics_lookup_all
  have hR := fsWrites_day topics fs0 days days_nodup (fun _ h => h)
  have hL := fsWrites_day topics
    (fsWrites fs0 (days.map (fun e => (filePath e, content e (topicIn topics e)))))
    days days_nodup (fun _ h => h)
  refine ⟨by rw [htr1, htr2], ?_, ?_⟩
  · intro d hd
    constructor
    · rw [hfs1]
      exact hR d hd
    · rw [hfs2, hfs1, hL d hd, hR d hd]
  · intro q hq
    rw [hfs2, hfs1,
      fsWrites_other topics
        (fsWrites fs0 (days.map (fun e => (filePath e, content e (topicIn topics e)))))
        days q hq,
      fsWrites_other topics fs0 days q hq]

/-- Witness for C5 on the empty file system: both runs write the same
bytes, day 6's file holds its document after the first run, and a path
outside the outputs is still absent after both runs. -/
theorem spec_c5_witness :
    writes (runTrace topics (fun _ => true)
        (runFS topics (fun _ => true) (fun _ => none))) =
      writes (runTrace topics (fun _ => true) (fun _ => none)) ∧
    runFS topics (fun _ => true) (fun _ => none) (filePath 6) =
      some (content 6 (topicOf 6)) ∧
    runFS topics (fun _ => true) (runFS topics (fun _ => true) (fun _ => none))
      "day-5/practice/interview-questions.md" = none :=
  ⟨(spec_c5 (fun _ => none)).1,
   ((spec_c5 (fun _ => none)).2.1 6 (by decide)).1,
   (spec_c5 (fun _ => none)).2.2 "day-5/practice/interview-questions.md"
     (by decide)⟩

/-- C7 counterexample: on a fully successful run the console lines carry a
`✅ ` prefix: the first line is
`✅ Created day-6/practice/interview-questions.md`, the line
`Created day-6/practice/interview-questions.md` never occurs, and the last
line is not `Generated all interview question files!` (though the output
does have 16 lines). -/
theorem spec_c7_counterexample :
    (prints (runTrace topics (fun _ => true) (fun _ => none))).length = 16 ∧
    (prints (runTrace topics (fun _ => true) (fun _ => none))).head? =
      some "✅ Created day-6/practice/interview-questions.md" ∧
    "Created day-6/practice/interview-questions.md" ∉
      prints (runTrace topics (fun _ => true) (fun _ => none)) ∧
    (prints (runTrace topics (fun _ => true) (fun _ => none))).getLast? ≠
      some "Generated all interview question files!" := by
  decide

set_option maxHeartbeats 1600000 in
/-- C7 (amended): on a fully successful run (from any initial file system)
the console output is exactly these 16 lines: for each day d of 6–20 in
ascending order one line `✅ Created day-{d}/practice/interview-questions.md`,
then the final line `✅ Generated all interview question files!`. -/
theorem spec_c7 (fs0 : FS) :
    prints (runTrace topics (fun _ => true) fs0) =
      ["✅ Created day-6/practice/interview-questions.md",
       "✅ Created day-7/practice/interview-questions.md",
       "✅ Created day-8/practice/interview-questions.md",
       "✅ Created day-9/practice/interview-questions.md",
       "✅ Created day-10/practice/interview-questions.md",
       "✅ Created day-11/practice/interview-questions.md",
       "✅ Created day-12/practice/interview-questions.md",
       "✅ Created day-13/practice/interview-questions.md",
       "✅ Created day-14/practice/interview-questions.md",
       "✅ Created day-15/practice/interview-questions.md",
       "✅ Created day-16/practice/interview-questions.md",
       "✅ Created day-17/practice/interview-questions.md",
       "✅ Created day-18/practice/interview-questions.md",
       "✅ Created day-19/practice/interview-questions.md",
       "✅ Created day-20/practice/interview-questions.md",
       "✅ Generated all interview question files!"] := rfl

/-- Witness for C7 (amended) on the empty file system: the sixteen console
lines of a successful run. -/
theorem spec_c7_witness :
    prints (runTrace topics (fun _ => true) (fun _ => none)) =
      ["✅ Created day-6/practice/interview-questions.md",
       "✅ Created day-7/practice/interview-questions.md",
       "✅ Created day-8/practice/interview-questions.md",
       "✅ Created day-9/practice/interview-questions.md",
       "✅ Created day-10/practice/interview-questions.md",
       "✅ Created day-11/practice/interview-questions.md",
       "✅ Created day-12/practice/interview-questions.md",
       "✅ Created day-13/practice/interview-questions.md",
       "✅ Created day-14/practice/interview-questions.md",
       "✅ Created day-15/practice/interview-questions.md",
       "✅ Created day-16/practice/interview-questions.md",
       "✅ Created day-17/practice/interview-questions.md",
       "✅ Created day-18/practice/interview-questions.md",
       "✅ Created day-19/practice/interview-questions.md",
       "✅ Created day-20/practice/interview-questions.md",
       "✅ Generated all interview question files!"] :=
  spec_c7 (fun _ => none)

/-- C8: a fully successful run writes exactly the fifteen files
`day-6/…` through `day-20/…` (in day order, each holding the full rendered
document and overwriting whatever the path held), touches no other path,
and performs no filesystem operation other than these writes — in
particular it never creates the `day-{d}/practice/` parent directories. -/
theorem spec_c8 (fs0 : FS) :
    runErr topics (fun _ => true) fs0 = none ∧
    writes (runTrace topics (fun _ => true) fs0) =
      days.map (fun d => (filePath d, content d (topicOf d))) ∧
    days.length = 15 ∧
    (∀ d ∈ days, runFS topics (fun _ => true) fs0 (filePath d) =
      some (content d (topicOf d))) ∧
    (∀ q, (∀ d ∈ days, filePath d ≠ q) →
      runFS topics (fun _ => true) fs0 q = fs0 q) ∧
    (∀ p c, Event.write p c ∈ runTrace topics (fun _ => true) fs0 →
      p ∈ days.map filePath) := by
  obtain ⟨herr, htr, hfs⟩ := run_ok topics fs0 topics_lookup_all
  refine ⟨herr, ?_, rfl, ?_, ?_, ?_⟩
  · rw [htr, writes_append, writes_flatMap]
    rfl
  · intro d hd
    rw [hfs]
    exact fsWrites_day topics fs0 days days_nodup (fun _ h => h) d hd
  · intro q hq
    rw [hfs]
    exact fsWrites_other topics fs0 days q hq
  · intro p c hpc
    rw [htr] at hpc
    rcases List.mem_append.mp hpc with h | h
    · obtain ⟨d, hd, hin⟩ := List.mem_flatMap.mp h
      simp only [dayEvents, List.mem_cons, List.not_mem_nil, or_false] at hin
      rcases hin with hin | hin
      · exact List.mem_map.mpr ⟨d, hd, ((Event.write.injEq ..).mp hin).1.symm⟩
      · exact absurd hin (by simp)
    · exact absurd h (by simp)

/-- Witness for C8 on the empty file system: no error, fifteen days, day
6's file holds its document, and a path outside the outputs stays absent. -/
theorem spec_c8_witness :
    runErr topics (fun _ => true) (fun _ => none) = none ∧
    days.length = 15 ∧
    runFS topics (fun _ => true) (fun _ => none) (filePath 6) =
      some (content 6 (topicOf 6)) ∧
    runFS topics (fun _ => true) (fun _ => none)
      "day-21/practice/interview-questions.md" = none :=
  ⟨(spec_c8 (fun _ => none)).1,
   (spec_c8 (fun _ => none)).2.2.1,
   (spec_c8 (fun _ => none)).2.2.2.1 6 (by decide),
   (spec_c8 (fun _ => none)).2.2.2.2.1
     "day-21/practice/interview-questions.md" (by decide)⟩

/-- C9: the shipped topic table has an entry for every day the loop
produces, so the missing-topic error is unreachable in the program as
shipped: no run over `topics` (whatever the file system does) can abort
with a key error. -/
theorem spec_c9 :
    (∀ d ∈ days, (topics.lookup d).isSome = true) ∧
    ∀ (writeOk : String → Bool) (fs0 : FS) (d : Nat),
      runErr topics writeOk fs0 ≠ some (.keyError d) := by
  refine ⟨topics_lookup_all, ?_⟩
  intro writeOk fs0 d h
  rw [runErr_genLoop] at h
  obtain ⟨hmem, hnone⟩ :=
    genLoop_keyError_lookup topics writeOk days ⟨fs0, []⟩ d h
  have hs := topics_lookup_all d hmem
  rw [hnone] at hs
  simp at hs

/-- Witness for C9 at day 6: day 6 has a table entry, and even a run whose
writes all fail does not abort with the day-6 key error. -/
theorem spec_c9_witness :
    (topics.lookup 6).isSome = true ∧
    runErr topics (fun _ => false) (fun _ => none) ≠ some (.keyError 6) :=
  ⟨spec_c9.1 6 (by decide), spec_c9.2 (fun _ => false) (fun _ => none) 6⟩

/-! ### Ordering of writes and progress notices (C10) -/

/-- Every per-file progress notice is a progress event. -/
lemma isProgressEvent_createdMsg (d : Nat) :
    isProgressEvent (.print (createdMsg d)) = true := by
  show strStartsWith ("✅ Created " ++ filePath d) "✅ Created " = true
  unfold strStartsWith
  rw [List.isPrefixOf_iff_prefix]
  show "✅ Created ".data <+: ("✅ Created " ++ filePath d).data
  rw [String.data_append]
  exact List.prefix_append _ _

/-- The completion notice is not a progress notice. -/
lemma isProgressEvent_doneMsg : isProgressEvent (.print doneMsg) = false := by
  decide

/-- No progress notice coincides with the completion notice. -/
lemma createdMsg_ne_doneMsg (d : Nat) : createdMsg d ≠ doneMsg := by
  intro h
  have h1 := isProgressEvent_createdMsg d
  rw [h] at h1
  exact absurd h1 (by decide)

/-- Distinct days of the range get distinct progress notices. -/
lemma createdMsg_inj_days :
    ∀ a ∈ days, ∀ b ∈ days, createdMsg a = createdMsg b → a = b := by decide

lemma cntWrites_append (a b : List Event) :
    cntWrites (a ++ b) = cntWrites a + cntWrites b := by
  simp [cntWrites]

lemma cntProgress_append (a b : List Event) :
    cntProgress (a ++ b) = cntProgress a + cntProgress b := by
  simp [cntProgress]

/-- A fully processed day contributes exactly one write and one progress
notice to the trace. -/
lemma cnt_blocks (tbl : List (Nat × String)) (l : List Nat) :
    cntWrites (l.flatMap (dayEvents tbl)) = l.length ∧
    cntProgress (l.flatMap (dayEvents tbl)) = l.length := by
  induction l with
  | nil => exact ⟨rfl, rfl⟩
  | cons d l ih =>
    rw [List.flatMap_cons, cntWrites_append, cntProgress_append, ih.1, ih.2]
    have hw : cntWrites (dayEvents tbl d) = 1 := rfl
    have hp : cntProgress (dayEvents tbl d) = 1 := by
      unfold cntProgress dayEvents
      rw [List.countP_cons, List.countP_cons, List.countP_nil,
        isProgressEvent_createdMsg]
      rfl
    rw [hw, hp, List.length_cons]
    omega

/-- In any prefix of the trace of fully processed days, the notice count
never exceeds the write count and trails it by at most one. -/
lemma blocks_prefix_count (tbl : List (Nat × String)) :
    ∀ (l : List Nat) (p : List Event), p <+: l.flatMap (dayEvents tbl) →
      cntProgress p ≤ cntWrites p ∧ cntWrites p ≤ cntProgress p + 1 := by
  intro l
  induction l with
  | nil =>
    intro p hp
    rw [List.flatMap_nil] at hp
    obtain rfl := List.prefix_nil.mp hp
    exact ⟨by decide, by decide⟩
  | cons d l ih =>
    intro p hp
    rw [List.flatMap_cons] at hp
    simp only [dayEvents, List.cons_append, List.nil_append] at hp
    rcases p with _ | ⟨a, p'⟩
    · exact ⟨by decide, by decide⟩
    · obtain ⟨rfl, hp'⟩ := List.cons_prefix_cons.mp hp
      rcases p' with _ | ⟨b, p''⟩
      · refine ⟨?_, ?_⟩ <;>
          simp [cntProgress, cntWrites, List.countP_cons, isProgressEvent,
            isWriteEvent]
      · obtain ⟨rfl, hp''⟩ := List.cons_prefix_cons.mp hp'
        obtain ⟨h1, h2⟩ := ih p'' hp''
        have e1 : cntWrites (Event.write (filePath d) (content d (topicIn tbl d)) ::
            Event.print (createdMsg d) :: p'') = cntWrites p'' + 1 := by
          unfold cntWrites
          rw [List.countP_cons, List.countP_cons]
          simp [isWriteEvent]
        have e2 : cntProgress (Event.write (filePath d) (content d (topicIn tbl d)) ::
            Event.print (createdMsg d) :: p'') = cntProgress p'' + 1 := by
          unfold cntProgress
          rw [List.countP_cons, List.countP_cons, isProgressEvent_createdMsg]
          simp [isProgressEvent]
        rw [e1, e2]
        omega

/-- In any prefix of the trace of fully processed days, a day's progress
notice only appears after that day's write. -/
lemma blocks_prefix_order (tbl : List (Nat × String)) :
    ∀ (l : List Nat), (∀ e ∈ l, e ∈ days) →
      ∀ d ∈ days, ∀ (p : List Event), p <+: l.flatMap (dayEvents tbl) →
        Event.print (createdMsg d) ∈ p →
        Event.write (filePath d) (content d (topicIn tbl d)) ∈ p := by
  intro l
  induction l with
  | nil =>
    intro _ d _ p hp hmem
    rw [List.flatMap_nil] at hp
    obtain rfl := List.prefix_nil.mp hp
    simp at hmem
  | cons e l ih =>
    intro hsub d hd p hp hmem
    rw [List.flatMap_cons] at hp
    simp only [dayEvents, List.cons_append, List.nil_append] at hp
    rcases p with _ | ⟨a, p'⟩
    · simp at hmem
    · obtain ⟨rfl, hp'⟩ := List.cons_prefix_cons.mp hp
      rcases p' with _ | ⟨b, p''⟩
      · simp at hmem
      · obtain ⟨rfl, hp''⟩ := List.cons_prefix_cons.mp hp'
        simp only [List.mem_cons] at hmem
        rcases hmem with h1 | h2 | h3
        · exact absurd h1 (by simp)
        · have hde : d = e := createdMsg_inj_days d hd e (hsub e (by simp))
            (by simpa using h2)
          subst hde
          exact List.mem_cons_self _ _
        · exact List.mem_cons_of_mem _ (List.mem_cons_of_mem _
            (ih (fun x hx => hsub x (by simp [hx])) d hd p'' hp'' h3))

/-- A prefix of `A ++ [x]` is a prefix of `A` or the whole list. -/
lemma prefix_snoc_cases {α : Type _} (p A : List α) (x : α)
    (h : p <+: A ++ [x]) : p <+: A ∨ p = A ++ [x] := by
  by_cases hle : p.length ≤ A.length
  · left
    have hp := List.prefix_iff_eq_take.mp h
    rw [List.take_append_eq_append_take, Nat.sub_eq_zero_of_le hle,
      List.take_zero, List.append_nil] at hp
    rw [hp]
    exact List.take_prefix _ _
  · right
    have h1 := h.length_le
    refine h.eq_of_length ?_
    simp only [List.length_append, List.length_cons, List.length_nil] at h1 ⊢
    omega

/-- Shape of the loop's trace: some initial segment of the remaining days
was fully processed (all of it when no error occurred). -/
lemma genLoop_shape (tbl : List (Nat × String)) (writeOk : String → Bool) :
    ∀ (ds : List Nat) (s : St), ∃ l₁,
      (∀ e ∈ l₁, e ∈ ds) ∧
      (genLoop tbl writeOk ds s).1.trace =
        s.trace ++ l₁.flatMap (dayEvents tbl) ∧
      ((genLoop tbl writeOk ds s).2 = none → l₁ = ds) := by
  intro ds
  induction ds with
  | nil =>
    intro s
    exact ⟨[], by simp, by simp [genLoop], fun _ => rfl⟩
  | cons d ds ih =>
    intro s
    cases hle : tbl.lookup d with
    | none =>
      refine ⟨[], by simp, ?_, ?_⟩ <;> rw [genLoop_cons] <;> simp [hle]
    | some t =>
      cases hw : writeOk (filePath d) with
      | false =>
        refine ⟨[], by simp, ?_, ?_⟩ <;> rw [genLoop_cons] <;> simp [hle, hw]
      | true =>
        have hg : genLoop tbl writeOk (d :: ds) s =
            genLoop tbl writeOk ds
              { fs := fsWrite s.fs (filePath d) (content d t),
                trace := s.trace ++
                  [.write (filePath d) (content d t), .print (createdMsg d)] } := by
          rw [genLoop_cons]
          simp [hle, hw]
        obtain ⟨l₁, hsub, htr, hok⟩ := ih
          { fs := fsWrite s.fs (filePath d) (content d t),
            trace := s.trace ++
              [.write (filePath d) (content d t), .print (createdMsg d)] }
        have htIn : topicIn tbl d = t := by simp [topicIn, hle]
        refine ⟨d :: l₁, ?_, ?_, ?_⟩
        · intro x hx
          rcases List.mem_cons.mp hx with rfl | hx'
          · exact List.mem_cons_self _ _
          · exact List.mem_cons_of_mem _ (hsub x hx')
        · rw [hg, htr]
          simp [dayEvents, htIn, List.append_assoc]
        · intro hnone
          rw [hg] at hnone
          rw [hok hnone]

/-- Shape of a whole run's trace: either the run succeeded and its trace is
the fifteen day blocks followed by the completion notice, or it aborted and
its trace is the day blocks of an initial segment of the range. -/
lemma runTrace_shape (tbl : List (Nat × String)) (writeOk : String → Bool)
    (fs0 : FS) :
    (runErr tbl writeOk fs0 = none ∧
      runTrace tbl writeOk fs0 =
        days.flatMap (dayEvents tbl) ++ [.print doneMsg]) ∨
    (∃ l₁ : List Nat, (∀ e ∈ l₁, e ∈ days) ∧
      runTrace tbl writeOk fs0 = l₁.flatMap (dayEvents tbl) ∧
      runErr tbl writeOk fs0 ≠ none) := by
  obtain ⟨l₁, hsub, htr, hok⟩ := genLoop_shape tbl writeOk days ⟨fs0, []⟩
  rcases hres : genLoop tbl writeOk days ⟨fs0, []⟩ with ⟨s, oe⟩
  rw [hres] at htr hok
  cases oe with
  | none =>
    left
    obtain rfl := hok rfl
    unfold runTrace runErr run
    rw [hres]
    simp only [List.nil_append] at htr
    simp [htr]
  | some e =>
    right
    refine ⟨l₁, hsub, ?_, ?_⟩
    · unfold runTrace run
      rw [hres]
      simpa using htr
    · unfold runErr run
      rw [hres]
      simp

/-- C10: in every run (over any table, any write behavior, any starting
file system) a day's progress notice appears in the trace only after that
day's write; in every prefix of the trace the notice count never exceeds
the write count (and trails it by at most one, the gap closing when the
day's notice is emitted); over the whole trace — also of an aborted run —
the notice count equals the number of files written; and the completion
notice appears only on success, as the last event, after all fifteen
writes. -/
theorem spec_c10 (tbl : List (Nat × String)) (writeOk : String → Bool)
    (fs0 : FS) :
    (∀ p, p <+: runTrace tbl writeOk fs0 →
      cntProgress p ≤ cntWrites p ∧ cntWrites p ≤ cntProgress p + 1) ∧
    cntProgress (runTrace tbl writeOk fs0) =
      cntWrites (runTrace tbl writeOk fs0) ∧
    (∀ d ∈ days, ∀ p, p <+: runTrace tbl writeOk fs0 →
      Event.print (createdMsg d) ∈ p →
      Event.write (filePath d) (content d (topicIn tbl d)) ∈ p) ∧
    (runErr tbl writeOk fs0 = none →
      (runTrace tbl writeOk fs0).getLast? = some (.print doneMsg) ∧
      cntWrites (runTrace tbl writeOk fs0) = days.length) := by
  have hdone : cntWrites [Event.print doneMsg] = 0 := rfl
  have hdoneP : cntProgress [Event.print doneMsg] = 0 := by
    unfold cntProgress
    rw [List.countP_cons, List.countP_nil, isProgressEvent_doneMsg]
    rfl
  rcases runTrace_shape tbl writeOk fs0 with ⟨herr, htr⟩ | ⟨l₁, hsub, htr, hne⟩
  · refine ⟨?_, ?_, ?_, fun _ => ⟨?_, ?_⟩⟩
    · intro p hp
      rw [htr] at hp
      rcases prefix_snoc_cases p _ _ hp with h | rfl
      · exact blocks_prefix_count tbl days p h
      · rw [cntWrites_append, cntProgress_append, hdone, hdoneP,
          (cnt_blocks tbl days).1, (cnt_blocks tbl days).2]
        omega
    · rw [htr, cntWrites_append, cntProgress_append, hdone, hdoneP,
        (cnt_blocks tbl days).1, (cnt_blocks tbl days).2]
    · intro d hd p hp hmem
      rw [htr] at hp
      rcases prefix_snoc_cases p _ _ hp with h | rfl
      · exact blocks_prefix_order tbl days (fun _ h' => h') d hd p h hmem
      · rcases List.mem_append.mp hmem with h | h
        · exact List.mem_append_left _
            (blocks_prefix_order tbl days (fun _ h' => h') d hd _
              (List.prefix_refl _) h)
        · exact absurd (by simpa using h) (createdMsg_ne_doneMsg d)
    · rw [htr]
      exact List.getLast?_concat _
    · rw [htr, cntWrites_append, hdone, (cnt_blocks tbl days).1]
      omega
  · refine ⟨?_, ?_, ?_, fun h => absurd h hne⟩
    · intro p hp
      rw [htr] at hp
      exact blocks_prefix_count tbl l₁ p hp
    · rw [htr, (cnt_blocks tbl l₁).1, (cnt_blocks tbl l₁).2]
    · intro d hd p hp hmem
      rw [htr] at hp
      exact blocks_prefix_order tbl l₁ hsub d hd p hp hmem

/-- Witness for C10 on the shipped program over the empty file system: the
notice count equals the write count, the trace ends with the completion
notice, and any trace prefix satisfies the count bounds. -/
theorem spec_c10_witness :
    cntProgress (runTrace topics (fun _ => true) (fun _ => none)) =
      cntWrites (runTrace topics (fun _ => true) (fun _ => none)) ∧
    (runTrace topics (fun _ => true) (fun _ => none)).getLast? =
      some (.print doneMsg) ∧
    cntProgress [] ≤ cntWrites ([] : List Event) := by
  have herr : runErr topics (fun _ => true) (fun _ => none) = none :=
    (run_ok topics (fun _ => none) topics_lookup_all).1
  refine ⟨(spec_c10 topics (fun _ => true) (fun _ => none)).2.1,
    ((spec_c10 topics (fun _ => true) (fun _ => none)).2.2.2 herr).1,
    ((spec_c10 topics (fun _ => true) (fun _ => none)).1 [] List.nil_prefix).1⟩

end ReactGen
